import Mathlib

/-!
Shallow embedding of the transaction-construction engine of the
`rusty-kaspa` wallet core: the `UtxoSet` / `UtxoSelectionContext` pair from
`wallet/core/src/utxo.rs` and the mass / fee / dust calculations from
`wallet/core/src/tx/limits.rs` and `wallet/core/src/tx/mod.rs`.

Machine integers (`u64`) are modelled as `Nat` with an explicit `% 2 ^ 64`
wherever the source performs arithmetic that can overflow or underflow.
`HashMap`s are modelled as association lists (insertion order standing in
for iteration order), and the async UTXO stream of a freshly created
selection context is modelled as the list of available entries at the time
the context was created.
-/

namespace RustyKaspa

/-- Decidable equality of `Except` results, for evaluating the model on
concrete inputs. -/
instance {ε α : Type} [DecidableEq ε] [DecidableEq α] : DecidableEq (Except ε α) := fun x y =>
  match x, y with
  | Except.error a, Except.error b =>
    if h : a = b then isTrue (by rw [h]) else isFalse (fun hc => h (Except.error.inj hc))
  | Except.error _, Except.ok _ => isFalse (fun hc => Except.noConfusion hc)
  | Except.ok _, Except.error _ => isFalse (fun hc => Except.noConfusion hc)
  | Except.ok a, Except.ok b =>
    if h : a = b then isTrue (by rw [h]) else isFalse (fun hc => h (Except.ok.inj hc))

/-- List membership is decidable from decidable equality (used to evaluate
membership statements on concrete inputs). -/
instance {α : Type} [DecidableEq α] (a : α) (l : List α) : Decidable (a ∈ l) :=
  decidable_of_iff (l.any fun x => decide (a = x)) (by
    simp only [List.any_eq_true, decide_eq_true_eq]
    constructor
    · rintro ⟨x, hx, he⟩
      rw [he]
      exact hx
    · intro h
      exact ⟨a, h, rfl⟩)

/-- The modulus of 64-bit unsigned machine arithmetic. -/
def U64MOD : Nat := 2 ^ 64

/-- Wrapping `u64` addition. -/
def add64 (a b : Nat) : Nat := (a + b) % U64MOD

/-- Wrapping `u64` subtraction (underflows when `b > a`). -/
def sub64 (a b : Nat) : Nat := (a + U64MOD - b) % U64MOD

/-- Wrapping `u64` multiplication. -/
def mul64 (a b : Nat) : Nat := (a * b) % U64MOD

/-- `TransactionOutpointInner`: the unique reference to a UTXO
(originating transaction id + output index). -/
structure TransactionOutpointInner where
  transactionId : Nat
  index : Nat
deriving DecidableEq

/-- `pub type UtxoEntryId = TransactionOutpointInner` (utxo.rs). -/
abbrev UtxoEntryId := TransactionOutpointInner

/-- `UtxoEntry` (utxo.rs): address, outpoint and the consensus entry,
of which only the `amount` field is relevant here. -/
structure UtxoEntry where
  address : Option Nat
  outpoint : TransactionOutpointInner
  amount : Nat
deriving DecidableEq

/-- `UtxoEntryReference` (utxo.rs): a shared handle on a `UtxoEntry`. -/
structure UtxoEntryReference where
  utxo : UtxoEntry
deriving DecidableEq

def UtxoEntryReference.amount (r : UtxoEntryReference) : Nat := r.utxo.amount

def UtxoEntryReference.id (r : UtxoEntryReference) : UtxoEntryId := r.utxo.outpoint

/-- `impl PartialEq for UtxoEntryReference` (utxo.rs lines 100-104):
equality compares only the amounts. This instance is what
`Vec::contains` resolves to in `UtxoSelectionContext::commit`. -/
instance : BEq UtxoEntryReference := ⟨fun a b => a.amount == b.amount⟩

/-- `Consumed` (utxo.rs): a reserved entry stamped with its reservation time. -/
structure Consumed where
  entry : UtxoEntryReference
  instant : Nat
deriving DecidableEq

/-- `Inner` (utxo.rs lines 159-164): the available sequence, the reserved
(consumed) map and the id index.  The two `HashMap`s are modelled as
association lists keyed by `UtxoEntryId`. -/
structure Inner where
  entries : List UtxoEntryReference
  consumed : List (UtxoEntryId × Consumed)
  map : List (UtxoEntryId × UtxoEntryReference)
deriving DecidableEq

def Inner.new : Inner := ⟨[], [], []⟩

/-- Association-list lookup, modelling `HashMap::get`. -/
def assocLookup {α : Type} (k : UtxoEntryId) : List (UtxoEntryId × α) → Option α
  | [] => none
  | (k2, v) :: rest => if k2 = k then some v else assocLookup k rest

/-- Association-list insert, modelling `HashMap::insert` (replaces the
value when the key is present). -/
def assocInsert {α : Type} (k : UtxoEntryId) (v : α) (m : List (UtxoEntryId × α)) :
    List (UtxoEntryId × α) :=
  if (assocLookup k m).isSome then
    m.map (fun p => if p.1 = k then (k, v) else p)
  else
    m ++ [(k, v)]

/-- Association-list removal, modelling `HashMap::remove`. -/
def assocRemove {α : Type} (k : UtxoEntryId) (m : List (UtxoEntryId × α)) :
    List (UtxoEntryId × α) :=
  m.filter (fun p => p.1 != k)

/-- `sorted_insert_asc_binary`: insertion into an ascending-by-amount
sorted sequence, after any entries of equal amount (stable). -/
def sortedInsertAsc (e : UtxoEntryReference) : List UtxoEntryReference → List UtxoEntryReference
  | [] => [e]
  | x :: rest =>
    if e.amount < x.amount then e :: x :: rest else x :: sortedInsertAsc e rest

/-- `UtxoSet::insert` for a single entry: ignored if the id is already
indexed, otherwise indexed and sorted-inserted into the available
sequence (utxo.rs lines 333-344). -/
def UtxoSet.insert1 (s : Inner) (e : UtxoEntryReference) : Inner :=
  if (assocLookup e.id s.map).isSome then s
  else ⟨sortedInsertAsc e s.entries, s.consumed, s.map ++ [(e.id, e)]⟩

/-- `UtxoSet::insert` (utxo.rs lines 333-344). -/
def UtxoSet.insert (s : Inner) (es : List UtxoEntryReference) : Inner :=
  es.foldl UtxoSet.insert1 s

/-- `UtxoSet::extend` (utxo.rs lines 365-373): `map.insert` always stores
the entry; the available sequence gains it only when the id was new. -/
def UtxoSet.extend (s : Inner) (es : List UtxoEntryReference) : Inner :=
  es.foldl
    (fun st e =>
      if (assocLookup e.id st.map).isSome then
        ⟨st.entries, st.consumed, assocInsert e.id e st.map⟩
      else
        ⟨sortedInsertAsc e st.entries, st.consumed, assocInsert e.id e st.map⟩)
    s

/-- `UtxoSet::remove` (utxo.rs lines 346-363): a first pass deletes the
ids from the index, a second pass drops each removed id from the
consumed map or, failing that, from the available sequence. -/
def UtxoSet.remove (s : Inner) (ids : List UtxoEntryId) : Inner :=
  let firstPass := ids.foldl
    (fun (acc : Inner × List UtxoEntryId) id =>
      if (assocLookup id acc.1.map).isSome then
        (⟨acc.1.entries, acc.1.consumed, assocRemove id acc.1.map⟩, acc.2 ++ [id])
      else
        acc)
    (s, [])
  firstPass.2.foldl
    (fun st id =>
      if (assocLookup id st.consumed).isSome then
        ⟨st.entries, assocRemove id st.consumed, st.map⟩
      else
        ⟨st.entries.filter (fun e => e.id != id), st.consumed, st.map⟩)
    firstPass.1

/-- `UtxoSet::calculate_balance` (utxo.rs lines 459-461): the `u64` sum of
the amounts of the available sequence. -/
def UtxoSet.calculate_balance (s : Inner) : Nat :=
  s.entries.foldl (fun acc e => add64 acc e.amount) 0

/-- `UtxoSet::recover_consumed_utxos` (utxo.rs lines 381-402): every
consumed entry whose timestamp is older than the 60-second checkpoint is
dropped from the consumed map and sorted-reinserted into the available
sequence.  `now` is the current time in seconds. -/
def UtxoSet.recover_consumed_utxos (now : Nat) (s : Inner) : Inner :=
  let checkpoint := now - 60
  let removed := (s.consumed.filter (fun p => decide (p.2.instant < checkpoint))).map
    (fun p => p.2.entry)
  let kept := s.consumed.filter (fun p => !(decide (p.2.instant < checkpoint)))
  ⟨removed.foldl (fun es e => sortedInsertAsc e es) s.entries, kept, s.map⟩

/-- `UtxoSelectionContext` (utxo.rs lines 196-202): the per-build cursor,
holding the entries selected so far and the selected amount. -/
structure UtxoSelectionContext where
  selected_entries : List UtxoEntryReference
  selected_amount : Nat
deriving DecidableEq

/-- A freshly created selection context (`UtxoSelectionContext::new`). -/
def UtxoSelectionContext.new : UtxoSelectionContext := ⟨[], 0⟩

/-- The wallet error type; `Error::InsufficientFunds` is the variant
returned by `select`. -/
inductive WalletError where
  | insufficientFunds
deriving DecidableEq

/-- The loop of `UtxoSelectionContext::select` (utxo.rs lines 229-237):
pull entries from the stream, accumulate the `u64` running amount, and
stop as soon as the running amount reaches the target.  Returns the final
running amount and the list of entries taken. -/
def selectLoop (target : Nat) : List UtxoEntryReference → Nat → Nat × List UtxoEntryReference
  | [], amount => (amount, [])
  | e :: rest, amount =>
    let amount1 := add64 amount e.amount
    if target ≤ amount1 then (amount1, [e])
    else
      let r := selectLoop target rest amount1
      (r.1, e :: r.2)

/-- `UtxoSelectionContext::select` (utxo.rs lines 226-245) for a freshly
bound stream over the available sequence of `s`.  All entries pulled from
the stream are pushed into `selected_entries` (also on failure);
`selected_amount` is updated only on success.  The `UtxoSet` itself is not
touched, which the model reflects by not producing a new `Inner`. -/
def UtxoSelectionContext.select (ctx : UtxoSelectionContext) (s : Inner)
    (selection_amount : Nat) :
    UtxoSelectionContext × Except WalletError (List UtxoEntryReference) :=
  let r := selectLoop selection_amount s.entries 0
  if r.1 < selection_amount then
    (⟨ctx.selected_entries ++ r.2, ctx.selected_amount⟩, Except.error WalletError.insufficientFunds)
  else
    (⟨ctx.selected_entries ++ r.2, r.1⟩, Except.ok r.2)

/-- `UtxoSelectionContext::commit` (utxo.rs lines 247-256), faithful to the
source: `entries.retain(|entry| self.selected_entries.contains(entry))`
(note: *retains* the entries contained in the selection, using the
amount-only equality) and then inserts every selected entry into the
consumed map stamped with `now`. -/
def UtxoSelectionContext.commit (ctx : UtxoSelectionContext) (now : Nat) (s : Inner) : Inner :=
  let entries := s.entries.filter (fun entry => ctx.selected_entries.contains entry)
  let consumed := ctx.selected_entries.foldl
    (fun m entry => assocInsert entry.id ⟨entry, now⟩ m) s.consumed
  ⟨entries, consumed, s.map⟩

/-- The exact (mathematical) sum of the amounts of a list of entries,
used on the specification side of the selection theorems. -/
def natSumAmounts (l : List UtxoEntryReference) : Nat :=
  (l.map (fun e => e.amount)).sum

/-- The available sequence is sorted ascending by amount (specification
side of the selection theorems). -/
def isAscendingByAmount : List UtxoEntryReference → Bool
  | [] => true
  | [_] => true
  | a :: b :: rest => decide (a.amount ≤ b.amount) && isAscendingByAmount (b :: rest)

/-! ## Transactions and the mass / fee / dust calculations (tx/limits.rs) -/

/-- `ScriptPublicKey`: a script version and the script bytes. -/
structure ScriptPublicKey where
  version : Nat
  script : List Nat
deriving DecidableEq

/-- `TransactionOutputInner` (tx/output.rs): value and locking script. -/
structure TransactionOutputInner where
  value : Nat
  scriptPublicKey : ScriptPublicKey
deriving DecidableEq

/-- `TransactionInput` (tx/input.rs): outpoint, signature script, sequence
and signature-operation count. -/
structure TransactionInput where
  previousOutpoint : TransactionOutpointInner
  signatureScript : List Nat
  sequence : Nat
  sigOpCount : Nat
deriving DecidableEq

/-- `Transaction` (tx/transaction.rs): version, inputs, outputs, lock
time, subnetwork id, gas and payload. -/
structure Transaction where
  version : Nat
  inputs : List TransactionInput
  outputs : List TransactionOutputInner
  lockTime : Nat
  subnetworkId : List Nat
  gas : Nat
  payload : List Nat
deriving DecidableEq

/-- `SIGNATURE_SIZE` (tx/limits.rs line 15): 1 + 64 + 1 bytes. -/
def SIGNATURE_SIZE : Nat := 1 + 64 + 1

/-- `MINIMUM_RELAY_TRANSACTION_FEE` (tx/limits.rs line 19). -/
def MINIMUM_RELAY_TRANSACTION_FEE : Nat := 1000

/-- Modelled from the spec: the network's maximum supply cap
(`kaspa_consensus_core::constants::MAX_SOMPI`, not under `src/`):
29 billion coins of 100,000,000 sompi each. -/
def MAX_SOMPI : Nat := 29000000000 * 100000000

/-- `SUBNETWORK_ID_SIZE`: the subnetwork id is a fixed 20-byte field
(`SubnetworkId::from_bytes([0; 20])` in tx/mod.rs line 105). -/
def SUBNETWORK_ID_SIZE : Nat := 20

/-- `kaspa_hashes::HASH_SIZE`: transaction ids and the payload hash are
32-byte fields (spec section 4.3: outpoint = 32B id + 4B index). -/
def HASH_SIZE : Nat := 32

/-- `minimum_required_transaction_relay_fee` (tx/limits.rs lines 27-43):
scale the base fee by the mass (wrapping `u64` multiply), substitute the
base fee when the result is zero, and cap at `MAX_SOMPI`. -/
def minimum_required_transaction_relay_fee (mass : Nat) : Nat :=
  let minimum_fee := mul64 mass MINIMUM_RELAY_TRANSACTION_FEE / 1000
  let minimum_fee := if minimum_fee = 0 then MINIMUM_RELAY_TRANSACTION_FEE else minimum_fee
  min minimum_fee MAX_SOMPI

/-- `transaction_output_serialized_byte_size_for_inner`
(tx/limits.rs lines 175-182): 8B value + 2B script version + 8B script
length + script bytes. -/
def transaction_output_serialized_byte_size_for_inner (o : TransactionOutputInner) : Nat :=
  8 + 2 + 8 + o.scriptPublicKey.script.length

/-- `transaction_output_serialized_byte_size` (tx/limits.rs lines 171-173). -/
def transaction_output_serialized_byte_size (o : TransactionOutputInner) : Nat :=
  transaction_output_serialized_byte_size_for_inner o

/-- `transaction_input_serialized_byte_size` (tx/limits.rs lines 153-162):
outpoint (32B id + 4B index) + 8B script length + script bytes + 8B
sequence. -/
def transaction_input_serialized_byte_size (i : TransactionInput) : Nat :=
  (HASH_SIZE + 4) + 8 + i.signatureScript.length + 8

/-- `transaction_serialized_byte_size` (tx/limits.rs lines 113-134). -/
def transaction_serialized_byte_size (tx : Transaction) : Nat :=
  2 + 8 + (tx.inputs.map transaction_input_serialized_byte_size).sum
    + 8 + (tx.outputs.map transaction_output_serialized_byte_size).sum
    + 8 + SUBNETWORK_ID_SIZE + 8 + HASH_SIZE + 8 + tx.payload.length

/-- `is_transaction_output_dust` (tx/limits.rs lines 55-107): a script
shorter than 33 bytes is always dust; otherwise the output is dust when
`value * 1000 / (3 * total_serialized_size)` is below the relay fee, with
a widened (`u128`, exact for every `u64` value) path when `value * 1000`
overflows the `checked_mul`. -/
def is_transaction_output_dust (o : TransactionOutputInner) : Bool :=
  if o.scriptPublicKey.script.length < 33 then true
  else
    let total_serialized_size := transaction_output_serialized_byte_size o + 148
    let value := o.value
    if value * 1000 < U64MOD then
      decide (value * 1000 / (3 * total_serialized_size) < MINIMUM_RELAY_TRANSACTION_FEE)
    else
      decide (value * 1000 / (3 * total_serialized_size) < MINIMUM_RELAY_TRANSACTION_FEE)

/-- `MassCalculator` (tx/limits.rs lines 184-188): the three per-network
mass parameters. -/
structure MassCalculator where
  mass_per_tx_byte : Nat
  mass_per_script_pub_key_byte : Nat
  mass_per_sig_op : Nat
deriving DecidableEq

/-- `MassCalculator::calc_serialized_mass_for_tx` (tx/limits.rs lines 234-236). -/
def MassCalculator.calc_serialized_mass_for_tx (mc : MassCalculator) (tx : Transaction) : Nat :=
  transaction_serialized_byte_size tx * mc.mass_per_tx_byte

/-- `MassCalculator::calc_mass_for_outputs` (tx/limits.rs lines 240-246). -/
def MassCalculator.calc_mass_for_outputs (mc : MassCalculator)
    (outputs : List TransactionOutputInner) : Nat :=
  (outputs.map (fun o => 2 + o.scriptPublicKey.script.length)).sum
    * mc.mass_per_script_pub_key_byte

/-- `MassCalculator::calc_mass_for_inputs` (tx/limits.rs lines 248-250). -/
def MassCalculator.calc_mass_for_inputs (mc : MassCalculator)
    (inputs : List TransactionInput) : Nat :=
  (inputs.map (fun i => i.sigOpCount)).sum * mc.mass_per_sig_op

/-- `MassCalculator::calc_mass_for_tx` (tx/limits.rs lines 203-221). -/
def MassCalculator.calc_mass_for_tx (mc : MassCalculator) (tx : Transaction) : Nat :=
  mc.calc_serialized_mass_for_tx tx + mc.calc_mass_for_outputs tx.outputs
    + mc.calc_mass_for_inputs tx.inputs

/-- `MassCalculator::calc_signature_mass_for_inputs` (tx/limits.rs lines 265-268). -/
def MassCalculator.calc_signature_mass_for_inputs (mc : MassCalculator)
    (number_of_inputs : Nat) (minimum_signatures : Nat) : Nat :=
  SIGNATURE_SIZE * mc.mass_per_tx_byte * max 1 minimum_signatures * number_of_inputs

/-- `MassCalculator::calc_minium_tx_relay_fee` (tx/limits.rs lines 270-273). -/
def MassCalculator.calc_minium_tx_relay_fee (mc : MassCalculator) (tx : Transaction)
    (minimum_signatures : Nat) : Nat :=
  minimum_required_transaction_relay_fee
    (mc.calc_mass_for_tx tx
      + mc.calc_signature_mass_for_inputs tx.inputs.length minimum_signatures)

/-! ## The transaction builder (tx/mod.rs) -/

/-- Modelled from the spec: `pay_to_address_script` (kaspa_txscript, not
under `src/`) produces the canonical 34-byte pay-to-pubkey locking script
`[OP_DATA_32, 32 pubkey bytes, OP_CHECKSIG]` for an address. -/
def pay_to_address_script (address : Nat) : List Nat :=
  32 :: (List.replicate 32 (address % 256) ++ [172])

/-- Modelled from the spec: the network-parameters collaborator supplies
the mass parameters selected by network identity; these are the mainnet
values of `kaspa_consensus_core` (`mass_per_tx_byte = 1`,
`mass_per_script_pub_key_byte = 10`, `mass_per_sig_op = 1000`). -/
def mainnet_mass_calculator : MassCalculator := ⟨1, 10, 1000⟩

/-- Modelled from the spec: `get_consensus_params_by_address` (not under
`src/`) resolves the network parameters for an address; the model always
resolves to the mainnet parameters. -/
def get_consensus_params_by_address (_address : Nat) : MassCalculator :=
  mainnet_mass_calculator

/-- `MutableTransaction` (tx/mtx.rs, not under `src/`): the transaction
plus the amounts of the UTXO entries backing its inputs. -/
structure MutableTransaction where
  tx : Transaction
  entries : List Nat
deriving DecidableEq

/-- Modelled from the spec: `MutableTransaction::total_input_amount`
(tx/mtx.rs, not under `src/`) is the `u64` sum of the amounts of the
entries backing the inputs. -/
def MutableTransaction.total_input_amount (mtx : MutableTransaction) : Nat :=
  mtx.entries.foldl add64 0

/-- Modelled from the spec: `MutableTransaction::total_output_amount`
(tx/mtx.rs, not under `src/`) is the `u64` sum of the output values. -/
def Transaction.total_output_amount (tx : Transaction) : Nat :=
  (tx.outputs.map (fun o => o.value)).foldl add64 0

def MutableTransaction.total_output_amount (mtx : MutableTransaction) : Nat :=
  mtx.tx.total_output_amount

/-- The typed failures of the transaction builder; the source returns
formatted string errors for each of these conditions. -/
inductive TxError where
  | outputsExceedAmountAfterPriorityFee
  | feeShortfall
  | priorityFeeExceedsInputAmount
deriving DecidableEq

/-- The first step of `adjust_transaction_for_fee` (tx/mod.rs line 127):
the unchecked `u64` subtraction `total_input_amount - priority_fee`. -/
def amount_after_priority_fee (total_input_amount priority_fee : Nat) : Nat :=
  sub64 total_input_amount priority_fee

/-- `adjust_transaction_for_fee` (tx/mod.rs lines 116-175): attach a
non-dust change output, compute the minimum relay fee on the resulting
transaction, and on a shortfall shrink the change output (or drop it when
the shrunken change is dust), failing when the change cannot cover the
shortfall.  Returns the final transaction (the source mutates it in
place). -/
def adjust_transaction_for_fee (mtx : MutableTransaction) (change_address : Nat)
    (minimum_signatures : Nat) (priority_fee_opt : Option Nat) :
    Except TxError Transaction :=
  let total_input_amount := mtx.total_input_amount
  let total_output_amount := mtx.total_output_amount
  let priority_fee := priority_fee_opt.getD 0
  let amount_after := amount_after_priority_fee total_input_amount priority_fee
  if total_output_amount > amount_after then
    Except.error TxError.outputsExceedAmountAfterPriorityFee
  else
    let tx := mtx.tx
    let change := amount_after - total_output_amount
    let change_output : TransactionOutputInner :=
      ⟨change, ⟨0, pay_to_address_script change_address⟩⟩
    let pushed : Bool := decide (0 < change) && !(is_transaction_output_dust change_output)
    let tx1 := if pushed then
        ⟨tx.version, tx.inputs, tx.outputs ++ [change_output], tx.lockTime,
          tx.subnetworkId, tx.gas, tx.payload⟩
      else tx
    let total_output_amount1 :=
      if pushed then total_output_amount + change else total_output_amount
    let params := get_consensus_params_by_address change_address
    let minimum_fee := params.calc_minium_tx_relay_fee tx1 minimum_signatures
    let total_fee := minimum_fee + priority_fee
    let fee := sub64 total_input_amount total_output_amount1
    if fee < total_fee then
      let fee_difference := total_fee - fee
      if !pushed || decide (change < fee_difference) then
        Except.error TxError.feeShortfall
      else
        let new_change := change - fee_difference
        let change_output1 : TransactionOutputInner :=
          ⟨new_change, change_output.scriptPublicKey⟩
        if is_transaction_output_dust change_output1 then
          Except.ok ⟨tx1.version, tx1.inputs, tx.outputs, tx1.lockTime,
            tx1.subnetworkId, tx1.gas, tx1.payload⟩
        else
          Except.ok ⟨tx1.version, tx1.inputs, tx.outputs ++ [change_output1], tx1.lockTime,
            tx1.subnetworkId, tx1.gas, tx1.payload⟩
    else
      Except.ok tx1

/-- `PaymentOutput` (tx/payment.rs): a requested destination. -/
structure PaymentOutput where
  address : Nat
  amount : Nat
deriving DecidableEq

/-- The `u64` accumulation of the selected entries' amounts performed by
`create_transaction` (tx/mod.rs line 84). -/
def create_total_input (ctx : UtxoSelectionContext) : Nat :=
  ctx.selected_entries.foldl (fun acc r => add64 acc r.amount) 0

/-- `create_transaction` (tx/mod.rs lines 63-114): one input per selected
entry (sequence = position, empty signature script), one output per
requested destination, a guard rejecting `priority_fee >
total_input_amount`, then delegation to `adjust_transaction_for_fee`
(which mutates the transaction in place; the model returns the mutable
transaction with the adjusted transaction). -/
def create_transaction (sig_op_count : Nat) (ctx : UtxoSelectionContext)
    (outputs : List PaymentOutput) (change_address : Nat) (minimum_signatures : Nat)
    (priority_fee : Option Nat) (payload : Option (List Nat)) :
    Except TxError MutableTransaction :=
  let utxos := ctx.selected_entries
  let total_input_amount := create_total_input ctx
  let inputs := utxos.enum.map
    (fun p => TransactionInput.mk p.2.id [] p.1 sig_op_count)
  let priority_fee1 := priority_fee.getD 0
  if priority_fee1 > total_input_amount then
    Except.error TxError.priorityFeeExceedsInputAmount
  else
    let outputs1 := outputs.map
      (fun o => TransactionOutputInner.mk o.amount ⟨0, pay_to_address_script o.address⟩)
    let tx : Transaction :=
      ⟨0, inputs, outputs1, 0, List.replicate 20 0, 0, payload.getD []⟩
    let entries := utxos.map (fun r => r.amount)
    let mtx : MutableTransaction := ⟨tx, entries⟩
    match adjust_transaction_for_fee mtx change_address minimum_signatures
        (some priority_fee1) with
    | Except.error e => Except.error e
    | Except.ok txFinal => Except.ok ⟨txFinal, entries⟩

/-! ## Concrete instances used by the theorems -/

/-- A UTXO of amount 100 at outpoint (1, 0). -/
def refA100 : UtxoEntryReference := ⟨⟨some 1, ⟨1, 0⟩, 100⟩⟩

/-- A UTXO of amount 200 at outpoint (2, 0). -/
def refB200 : UtxoEntryReference := ⟨⟨some 2, ⟨2, 0⟩, 200⟩⟩

/-- A UTXO of amount 1000 at outpoint (3, 0). -/
def refC1000 : UtxoEntryReference := ⟨⟨some 3, ⟨3, 0⟩, 1000⟩⟩

/-- A UTXO set holding the amounts 100 and 200. -/
def setAB : Inner := UtxoSet.insert Inner.new [refA100, refB200]

/-- A UTXO set holding only the amount 100. -/
def setA : Inner := UtxoSet.insert Inner.new [refA100]

/-- A UTXO set holding the amounts 100, 200 and 1000 (spec section 8). -/
def setW : Inner := UtxoSet.insert Inner.new [refA100, refB200, refC1000]

/-- The single input of the C5 fee scenario: outpoint (9, 0), empty
signature script, sequence 0, one signature operation. -/
def c5_input : TransactionInput := ⟨⟨9, 0⟩, [], 0, 1⟩

/-- The single destination output of the C5 fee scenario: 500,000 locked
to a canonical pay-to-pubkey script. -/
def c5_dest : TransactionOutputInner := ⟨500000, ⟨0, pay_to_address_script 5⟩⟩

/-- The C5 scenario transaction before fee adjustment. -/
def c5_tx : Transaction := ⟨0, [c5_input], [c5_dest], 0, List.replicate 20 0, 0, []⟩

/-- The C5 scenario mutable transaction: total input amount 1,000,000. -/
def c5_mtx : MutableTransaction := ⟨c5_tx, [1000000]⟩

/-- The transaction `adjust_transaction_for_fee` produces for the C5
scenario: the change output holds 500,000 − 2,036 = 497,964. -/
def c5_final_tx : Transaction :=
  ⟨0, [c5_input], [c5_dest, ⟨497964, ⟨0, pay_to_address_script 7⟩⟩], 0,
    List.replicate 20 0, 0, []⟩

/-! ## Helper lemmas -/

/-- `add64` is exact addition below the 64-bit modulus. -/
theorem add64_eq_of_lt (a b : Nat) (h : a + b < U64MOD) : add64 a b = a + b := by
  unfold add64
  exact Nat.mod_eq_of_lt h

theorem natSumAmounts_nil : natSumAmounts [] = 0 := rfl

theorem natSumAmounts_cons (e : UtxoEntryReference) (l : List UtxoEntryReference) :
    natSumAmounts (e :: l) = e.amount + natSumAmounts l := by
  simp [natSumAmounts]

theorem selectLoop_nil (target amount : Nat) : selectLoop target [] amount = (amount, []) := rfl

theorem selectLoop_cons (target amount : Nat) (e : UtxoEntryReference)
    (rest : List UtxoEntryReference) :
    selectLoop target (e :: rest) amount =
      if target ≤ add64 amount e.amount then (add64 amount e.amount, [e])
      else ((selectLoop target rest (add64 amount e.amount)).1,
        e :: (selectLoop target rest (add64 amount e.amount)).2) := rfl

/-- The selection loop, run from a running amount strictly below the
target and free of 64-bit overflow, either consumes the entire stream
(when even the full sum stays below the target) or stops at the shortest
prefix whose accumulated amount reaches the target. -/
theorem selectLoop_spec (target : Nat) :
    ∀ (entries : List UtxoEntryReference) (amount : Nat),
      amount + natSumAmounts entries < U64MOD → amount < target →
      ((amount + natSumAmounts entries < target →
          selectLoop target entries amount = (amount + natSumAmounts entries, entries)) ∧
        (target ≤ amount + natSumAmounts entries →
          ∃ v, v <+: entries ∧
            selectLoop target entries amount = (amount + natSumAmounts v, v) ∧
            target ≤ amount + natSumAmounts v ∧
            ∀ u, u <+: v → u ≠ v → amount + natSumAmounts u < target))
  | [], amount, _hov, hlt => by
    constructor
    · intro _
      rw [natSumAmounts_nil, selectLoop_nil, Nat.add_zero]
    · intro hge
      rw [natSumAmounts_nil] at hge
      omega
  | e :: rest, amount, hov, hlt => by
    rw [natSumAmounts_cons] at hov
    have hadd : add64 amount e.amount = amount + e.amount :=
      add64_eq_of_lt _ _ (by omega)
    by_cases hbr : target ≤ add64 amount e.amount
    · have hbr2 : target ≤ amount + e.amount := by
        rw [hadd] at hbr
        exact hbr
      constructor
      · intro hls
        rw [natSumAmounts_cons] at hls
        omega
      · intro _
        refine ⟨[e], ⟨rest, rfl⟩, ?_, ?_, ?_⟩
        · rw [selectLoop_cons, if_pos hbr, hadd, natSumAmounts_cons, natSumAmounts_nil,
            Nat.add_zero]
        · rw [natSumAmounts_cons, natSumAmounts_nil]
          omega
        · intro u hu hne
          have hu0 : u = [] := by
            rcases hu with ⟨t, ht⟩
            cases u with
            | nil => rfl
            | cons x u2 =>
              simp only [List.cons_append, List.cons.injEq, List.append_eq_nil] at ht
              exact absurd (by rw [ht.1, ht.2.1]) hne
          rw [hu0, natSumAmounts_nil]
          omega
    · have hbr2 : amount + e.amount < target := by
        rw [hadd] at hbr
        omega
      have IH := selectLoop_spec target rest (amount + e.amount) (by omega) hbr2
      constructor
      · intro hls
        rw [natSumAmounts_cons] at hls
        have h1 := IH.1 (by omega)
        rw [selectLoop_cons, if_neg hbr, hadd, h1, natSumAmounts_cons]
        simp [Nat.add_assoc]
      · intro hge
        rw [natSumAmounts_cons] at hge
        obtain ⟨v, hpre, hloop, hgev, hmin⟩ := IH.2 (by omega)
        obtain ⟨t, ht⟩ := hpre
        refine ⟨e :: v, ⟨t, by rw [List.cons_append, ht]⟩, ?_, ?_, ?_⟩
        · rw [selectLoop_cons, if_neg hbr, hadd, hloop, natSumAmounts_cons]
          simp [Nat.add_assoc]
        · rw [natSumAmounts_cons]
          omega
        · intro u hu hne
          cases u with
          | nil =>
            rw [natSumAmounts_nil]
            omega
          | cons x u2 =>
            obtain ⟨t2, ht2⟩ := hu
            simp only [List.cons_append, List.cons.injEq] at ht2
            obtain ⟨hx, ht3⟩ := ht2
            subst hx
            have hne2 : u2 ≠ v := fun hv => hne (by rw [hv])
            have hmin2 := hmin u2 ⟨t2, ht3⟩ hne2
            rw [natSumAmounts_cons]
            omega

/-- When the selection loop fails to reach the target it has pulled every
entry of the stream. -/
theorem selectLoop_snd_of_fail (target : Nat) :
    ∀ (l : List UtxoEntryReference) (a : Nat),
      (selectLoop target l a).1 < target → (selectLoop target l a).2 = l
  | [], _, _ => rfl
  | e :: rest, a, h => by
    by_cases hbr : target ≤ add64 a e.amount
    · rw [selectLoop_cons, if_pos hbr] at h
      exact absurd h (by simp; omega)
    · rw [selectLoop_cons, if_neg hbr] at h
      have h2 : (selectLoop target rest (add64 a e.amount)).1 < target := h
      rw [selectLoop_cons, if_neg hbr]
      show e :: (selectLoop target rest (add64 a e.amount)).2 = e :: rest
      rw [selectLoop_snd_of_fail target rest (add64 a e.amount) h2]

theorem assocLookup_cons {α : Type} (k : UtxoEntryId) (p : UtxoEntryId × α)
    (l : List (UtxoEntryId × α)) :
    assocLookup k (p :: l) = if p.1 = k then some p.2 else assocLookup k l := by
  rcases p with ⟨k2, v⟩
  rfl

theorem assocLookup_replace_found {α : Type} (k : UtxoEntryId) (v : α) :
    ∀ (m : List (UtxoEntryId × α)), (assocLookup k m).isSome = true →
      assocLookup k (m.map (fun p => if p.1 = k then (k, v) else p)) = some v
  | [], h => by simp [assocLookup] at h
  | p :: rest, h => by
    rw [assocLookup_cons] at h
    by_cases hk : p.1 = k
    · simp [List.map_cons, hk, assocLookup_cons]
    · rw [if_neg hk] at h
      simp only [List.map_cons, if_neg hk]
      rw [assocLookup_cons, if_neg hk]
      exact assocLookup_replace_found k v rest h

theorem assocLookup_append_found {α : Type} (k : UtxoEntryId) (v : α) :
    ∀ (m : List (UtxoEntryId × α)), (assocLookup k m).isSome = false →
      assocLookup k (m ++ [(k, v)]) = some v
  | [], _ => by simp [assocLookup, assocLookup_cons]
  | p :: rest, h => by
    rw [assocLookup_cons] at h
    by_cases hk : p.1 = k
    · rw [if_pos hk] at h
      simp at h
    · rw [if_neg hk] at h
      rw [List.cons_append, assocLookup_cons, if_neg hk]
      exact assocLookup_append_found k v rest h

/-- `HashMap::insert` makes the inserted key present. -/
theorem assocLookup_assocInsert_self {α : Type} (k : UtxoEntryId) (v : α)
    (m : List (UtxoEntryId × α)) :
    assocLookup k (assocInsert k v m) = some v := by
  unfold assocInsert
  by_cases h : (assocLookup k m).isSome
  · rw [if_pos h]
    exact assocLookup_replace_found k v m h
  · rw [if_neg h]
    exact assocLookup_append_found k v m (by simpa using h)

theorem assocLookup_append_left {α : Type} (k : UtxoEntryId) :
    ∀ (m l2 : List (UtxoEntryId × α)), (assocLookup k m).isSome = true →
      assocLookup k (m ++ l2) = assocLookup k m
  | [], _, h => by simp [assocLookup] at h
  | p :: rest, l2, h => by
    rw [assocLookup_cons] at h
    rw [List.cons_append, assocLookup_cons, assocLookup_cons]
    by_cases hk : p.1 = k
    · rw [if_pos hk, if_pos hk]
    · rw [if_neg hk, if_neg hk]
      rw [if_neg hk] at h
      exact assocLookup_append_left k rest l2 h

theorem assocLookup_replace_other {α : Type} (k k2 : UtxoEntryId) (v : α) (hne : k2 ≠ k) :
    ∀ (m : List (UtxoEntryId × α)),
      (assocLookup k (m.map (fun p => if p.1 = k2 then (k2, v) else p))).isSome =
        (assocLookup k m).isSome
  | [] => rfl
  | p :: rest => by
    rw [List.map_cons, assocLookup_cons, assocLookup_cons]
    by_cases hk2 : p.1 = k2
    · rw [if_pos hk2]
      have hpk : ¬ p.1 = k := by rw [hk2]; exact hne
      rw [if_neg hpk]
      show (if k2 = k then some v else
        assocLookup k (rest.map (fun p => if p.1 = k2 then (k2, v) else p))).isSome = _
      rw [if_neg hne]
      exact assocLookup_replace_other k k2 v hne rest
    · rw [if_neg hk2]
      by_cases hpk : p.1 = k
      · rw [if_pos hpk, if_pos hpk]
      · rw [if_neg hpk, if_neg hpk]
        exact assocLookup_replace_other k k2 v hne rest

/-- `HashMap::insert` preserves the presence of every key. -/
theorem assocInsert_preserves_isSome {α : Type} (k k2 : UtxoEntryId) (v : α)
    (m : List (UtxoEntryId × α)) (h : (assocLookup k m).isSome = true) :
    (assocLookup k (assocInsert k2 v m)).isSome = true := by
  by_cases hkk : k2 = k
  · subst hkk
    rw [assocLookup_assocInsert_self]
    rfl
  · unfold assocInsert
    by_cases h2 : (assocLookup k2 m).isSome
    · rw [if_pos h2, assocLookup_replace_other k k2 v hkk m]
      exact h
    · rw [if_neg h2, assocLookup_append_left k m _ h]
      exact h

/-- A key present before the commit fold stays present. -/
theorem foldl_assocInsert_preserves (now : Nat) :
    ∀ (l : List UtxoEntryReference) (m : List (UtxoEntryId × Consumed)) (k : UtxoEntryId),
      (assocLookup k m).isSome = true →
      (assocLookup k (l.foldl (fun m entry => assocInsert entry.id ⟨entry, now⟩ m) m)).isSome
        = true
  | [], _, _, h => h
  | x :: rest, m, k, h => by
    rw [List.foldl_cons]
    exact foldl_assocInsert_preserves now rest _ k (assocInsert_preserves_isSome k x.id _ m h)

/-- Every entry of the committed selection ends up present in the
consumed map. -/
theorem foldl_assocInsert_mem (now : Nat) :
    ∀ (l : List UtxoEntryReference) (m : List (UtxoEntryId × Consumed))
      (e : UtxoEntryReference), e ∈ l →
      (assocLookup e.id (l.foldl (fun m entry => assocInsert entry.id ⟨entry, now⟩ m) m)).isSome
        = true
  | [], _, _, he => absurd he (List.not_mem_nil _)
  | x :: rest, m, e, he => by
    rw [List.foldl_cons]
    rcases List.mem_cons.mp he with h1 | h2
    · subst h1
      exact foldl_assocInsert_preserves now rest _ e.id
        (by rw [assocLookup_assocInsert_self]; rfl)
    · exact foldl_assocInsert_mem now rest _ e h2

/-! ## Theorems -/

/-- C1 (code bug): with available amounts 100 and 200, selecting 100 and
committing leaves the *selected* record in the available sequence and
deletes the *unselected* record, the opposite of the claim: the
`entries.retain(|entry| self.selected_entries.contains(entry))` in
`commit` keeps exactly the selected records (the reserved-map insertion
of the selected record does happen). -/
theorem commit_keeps_selected_available_and_drops_unselected :
    (UtxoSelectionContext.new.select setAB 100).2 = Except.ok [refA100] ∧
    ((UtxoSelectionContext.new.select setAB 100).1.commit 0 setAB).entries = [refA100] ∧
    (assocLookup refA100.id
      (((UtxoSelectionContext.new.select setAB 100).1.commit 0 setAB).consumed)).isSome
      = true ∧
    refB200 ∉ ((UtxoSelectionContext.new.select setAB 100).1.commit 0 setAB).entries := by
  decide

/-- C2 (code bug): after the same select-then-commit sequence the balance
is 100: it *includes* the record that is simultaneously held in the
reserved (consumed) map, and has lost the never-reserved amount 200,
refuting Invariant I2 on this reachable state. -/
theorem balance_counts_reserved_record_after_commit :
    UtxoSet.calculate_balance
      ((UtxoSelectionContext.new.select setAB 100).1.commit 0 setAB) = 100 ∧
    refA100 ∈ ((UtxoSelectionContext.new.select setAB 100).1.commit 0 setAB).entries ∧
    (assocLookup refA100.id
      (((UtxoSelectionContext.new.select setAB 100).1.commit 0 setAB).consumed)).isSome
      = true := by
  decide

/-- C5: for total input 1,000,000, one destination output of 500,000,
priority fee 0 and one minimum signature, `adjust_transaction_for_fee`
succeeds, and the final transaction pays fee
`total_input − total_output = 2036 ≥ calc_minium_tx_relay_fee(final, 1)`. -/
theorem adjust_transaction_for_fee_concrete_scenario :
    c5_mtx.total_input_amount = 1000000 ∧
    adjust_transaction_for_fee c5_mtx 7 1 (some 0) = Except.ok c5_final_tx ∧
    c5_mtx.total_input_amount - c5_final_tx.total_output_amount = 2036 ∧
    mainnet_mass_calculator.calc_minium_tx_relay_fee c5_final_tx 1 ≤ 2036 := by
  decide

/-- C6 (counterexample): at mass 1 the code returns fee 1, whereas the
claimed formula `max(mass × BASE_RELAY_FEE / 1000, BASE_RELAY_FEE)`
(capped at `MAX_SOMPI`) gives 1000: the code substitutes the base fee
only when the scaled fee is exactly zero, so the result *can* be below
`BASE_RELAY_FEE`. -/
theorem minimum_fee_below_base_relay_fee_cex :
    minimum_required_transaction_relay_fee 1 = 1 ∧
    min (max (1 * MINIMUM_RELAY_TRANSACTION_FEE / 1000) MINIMUM_RELAY_TRANSACTION_FEE)
      MAX_SOMPI = 1000 := by
  decide

/-- C8 (counterexample): with the canonical 34-byte pay-to-pubkey script,
an output of value 546 *is* classified as dust by
`is_transaction_output_dust` (the claim says it is not): the serialized
output size is 52 (8-byte length fields), so the dust bound is
`value < 600`, not `value < 546`. -/
theorem dust_at_value_546_cex :
    is_transaction_output_dust ⟨546, ⟨0, pay_to_address_script 0⟩⟩ = true ∧
    (pay_to_address_script 0).length = 34 := by
  decide

/-- C3: with the available sequence sorted ascending by amount, a
positive target, and no 64-bit overflow in the accumulated sum, a fresh
context's `select` returns exactly the shortest prefix of the available
sequence whose accumulated amount reaches the target (so the records are
accumulated in ascending-amount order), and fails with
`InsufficientFunds` exactly when the whole sequence cannot reach it. -/
theorem select_ascending_accumulation (s : Inner) (target : Nat)
    (hsorted : isAscendingByAmount s.entries = true)
    (hpos : 0 < target) (hov : natSumAmounts s.entries < U64MOD) :
    (natSumAmounts s.entries < target →
      (UtxoSelectionContext.new.select s target).2 =
        Except.error WalletError.insufficientFunds) ∧
    (target ≤ natSumAmounts s.entries →
      ∃ v, v <+: s.entries ∧
        (UtxoSelectionContext.new.select s target).2 = Except.ok v ∧
        target ≤ natSumAmounts v ∧
        ∀ u, u <+: v → u ≠ v → natSumAmounts u < target) := by
  have H := selectLoop_spec target s.entries 0 (by omega) hpos
  constructor
  · intro hlt
    have h1 := H.1 (by omega)
    simp [UtxoSelectionContext.select, h1, hlt]
  · intro hge
    obtain ⟨v, hpre, hloop, hgev, hmin⟩ := H.2 (by omega)
    refine ⟨v, hpre, ?_, by omega, fun u hu hne => by have := hmin u hu hne; omega⟩
    have hnl : ¬ natSumAmounts v < target := by omega
    simp [UtxoSelectionContext.select, hloop, hnl]

/-- C3 (witness): over available amounts [100, 200, 1000], `select(250)`
returns the records of amounts 100 and 200 (total 300); `select(1500)`
fails with `InsufficientFunds` and the balance stays 1300. -/
theorem select_ascending_accumulation_witness :
    (UtxoSelectionContext.new.select setW 250).2 = Except.ok [refA100, refB200] ∧
    natSumAmounts [refA100, refB200] = 300 ∧
    (UtxoSelectionContext.new.select setW 1500).2 =
      Except.error WalletError.insufficientFunds ∧
    UtxoSet.calculate_balance setW = 1300 := by
  have _hsucc :=
    (select_ascending_accumulation setW 250 (by decide) (by decide) (by decide)).2 (by decide)
  have hfail :=
    (select_ascending_accumulation setW 1500 (by decide) (by decide) (by decide)).1 (by decide)
  exact ⟨by decide, by decide, hfail, by decide⟩

/-- C4 (counterexample): over the single available amount 100,
`select(500)` fails with `InsufficientFunds`, yet the context retains the
traversed record in `selected_entries`, and committing that context does
change the UTXO set (the record is inserted into the consumed map) — the
claim that a failed selection leaves no committable state is false. -/
theorem failed_select_commit_mutates_set_cex :
    (UtxoSelectionContext.new.select setA 500).2 =
      Except.error WalletError.insufficientFunds ∧
    (UtxoSelectionContext.new.select setA 500).1.selected_entries = [refA100] ∧
    ((UtxoSelectionContext.new.select setA 500).1.commit 0 setA).consumed ≠
      setA.consumed := by
  decide

/-- C4 (amended): whenever a fresh context's `select` fails with
`InsufficientFunds` the UTXO set itself is untouched (`select` only
reads it, which the model expresses by returning no new `Inner`), but the
context retains the entire traversed sequence in `selected_entries`
(with `selected_amount` still 0), so a subsequent `commit` of that
context does mutate the set: every traversed record is inserted into the
consumed map. -/
theorem failed_select_context_retains_entries (s : Inner) (target now : Nat)
    (hfail : (UtxoSelectionContext.new.select s target).2 =
      Except.error WalletError.insufficientFunds) :
    (UtxoSelectionContext.new.select s target).1.selected_entries = s.entries ∧
    (UtxoSelectionContext.new.select s target).1.selected_amount = 0 ∧
    (s.entries.all (fun e =>
      (assocLookup e.id
        (((UtxoSelectionContext.new.select s target).1.commit now s).consumed)).isSome))
      = true := by
  have hlt : (selectLoop target s.entries 0).1 < target := by
    by_contra hge
    simp only [UtxoSelectionContext.select] at hfail
    rw [if_neg hge] at hfail
    exact Except.noConfusion hfail
  have hsnd := selectLoop_snd_of_fail target s.entries 0 hlt
  have hsel : (UtxoSelectionContext.new.select s target).1.selected_entries = s.entries := by
    simp [UtxoSelectionContext.select, hlt, hsnd, UtxoSelectionContext.new]
  refine ⟨hsel, ?_, ?_⟩
  · simp [UtxoSelectionContext.select, hlt, UtxoSelectionContext.new]
  · rw [List.all_eq_true]
    intro e he
    show (assocLookup e.id
      (((UtxoSelectionContext.new.select s target).1.commit now s).consumed)).isSome = true
    simp only [UtxoSelectionContext.commit]
    rw [hsel]
    exact foldl_assocInsert_mem now s.entries s.consumed e he

/-- C4 (amended, witness): the amended statement applied to the set with
single amount 100 and target 500 at commit time 7. -/
theorem failed_select_context_retains_entries_witness :
    (UtxoSelectionContext.new.select setA 500).1.selected_entries = setA.entries ∧
    (UtxoSelectionContext.new.select setA 500).1.selected_amount = 0 ∧
    (setA.entries.all (fun e =>
      (assocLookup e.id
        (((UtxoSelectionContext.new.select setA 500).1.commit 7 setA).consumed)).isSome))
      = true :=
  failed_select_context_retains_entries setA 500 7 (by decide)

/-- The mutable transaction of the C10 witness: total input amount 10. -/
def c10_mtx : MutableTransaction := ⟨⟨0, [], [], 0, List.replicate 20 0, 0, []⟩, [10]⟩

/-- C10: the first step of `adjust_transaction_for_fee` is the unchecked
`u64` subtraction `total_input_amount − priority_fee`: it is the exact
difference when `priority_fee ≤ total_input_amount`, and it underflows
(wrapping to the huge value `total_input_amount + (2^64 − priority_fee)`,
larger than the input amount) when the precondition is violated;
`create_transaction` establishes the precondition by rejecting any call
with `priority_fee > total_input_amount` before delegating. -/
theorem priority_fee_underflow_guard (mtx : MutableTransaction)
    (ctx : UtxoSelectionContext) (sig_op_count : Nat) (outs : List PaymentOutput)
    (change_address minimum_signatures : Nat) (payload : Option (List Nat))
    (pf1 pf2 pf3 : Nat) (hin : mtx.total_input_amount < U64MOD) (hpf2 : pf2 < U64MOD) :
    (pf1 ≤ mtx.total_input_amount →
      amount_after_priority_fee mtx.total_input_amount pf1 =
        mtx.total_input_amount - pf1) ∧
    (mtx.total_input_amount < pf2 →
      amount_after_priority_fee mtx.total_input_amount pf2 =
        mtx.total_input_amount + (U64MOD - pf2) ∧
      mtx.total_input_amount < amount_after_priority_fee mtx.total_input_amount pf2) ∧
    (create_total_input ctx < pf3 →
      create_transaction sig_op_count ctx outs change_address minimum_signatures
        (some pf3) payload = Except.error TxError.priorityFeeExceedsInputAmount) := by
  refine ⟨?_, ?_, ?_⟩
  · intro h
    unfold amount_after_priority_fee sub64
    have hsplit : mtx.total_input_amount + U64MOD - pf1 =
        (mtx.total_input_amount - pf1) + U64MOD := by omega
    rw [hsplit, Nat.add_mod_right]
    exact Nat.mod_eq_of_lt (by omega)
  · intro h
    have hv : mtx.total_input_amount + U64MOD - pf2 < U64MOD := by omega
    have heq : amount_after_priority_fee mtx.total_input_amount pf2 =
        mtx.total_input_amount + U64MOD - pf2 := by
      unfold amount_after_priority_fee sub64
      exact Nat.mod_eq_of_lt hv
    constructor
    · rw [heq]
      omega
    · rw [heq]
      omega
  · intro h
    simp [create_transaction, h]

/-- C10 (witness): with total input 10 the subtraction is exact for
priority fee 3 and wraps for priority fee 20; `create_transaction` on a
selection totalling 100 rejects priority fee 200. -/
theorem priority_fee_underflow_guard_witness :
    amount_after_priority_fee c10_mtx.total_input_amount 3 =
      c10_mtx.total_input_amount - 3 ∧
    amount_after_priority_fee c10_mtx.total_input_amount 20 =
      c10_mtx.total_input_amount + (U64MOD - 20) ∧
    create_transaction 1 ⟨[refA100], 0⟩ [] 0 1 (some 200) none =
      Except.error TxError.priorityFeeExceedsInputAmount := by
  have h := priority_fee_underflow_guard c10_mtx ⟨[refA100], 0⟩ 1 [] 0 1 none 3 20 200
    (by decide) (by decide)
  exact ⟨h.1 (by decide), (h.2.1 (by decide)).1, h.2.2 (by decide)⟩

/-- C6 (amended): in the non-overflowing range of the `u64` multiply,
`minimum_required_transaction_relay_fee(mass)` equals
`BASE_RELAY_FEE` for mass 0 and `min(mass, MAX_SOMPI)` for positive mass
(because `mass * 1000 / 1000 = mass`); in particular for
`0 < mass < 1000` the fee equals `mass` and is *below* `BASE_RELAY_FEE`. -/
theorem minimum_required_fee_characterization (mass : Nat) (hov : mass * 1000 < U64MOD) :
    (mass = 0 → minimum_required_transaction_relay_fee mass = MINIMUM_RELAY_TRANSACTION_FEE) ∧
    (0 < mass → minimum_required_transaction_relay_fee mass = min mass MAX_SOMPI) ∧
    (0 < mass → mass < MINIMUM_RELAY_TRANSACTION_FEE →
      minimum_required_transaction_relay_fee mass < MINIMUM_RELAY_TRANSACTION_FEE) := by
  have hmul : mul64 mass MINIMUM_RELAY_TRANSACTION_FEE = mass * 1000 := by
    unfold mul64 MINIMUM_RELAY_TRANSACTION_FEE
    exact Nat.mod_eq_of_lt hov
  have hdiv : mass * 1000 / 1000 = mass := by omega
  have h2 : 0 < mass → minimum_required_transaction_relay_fee mass = min mass MAX_SOMPI := by
    intro hpos
    simp only [minimum_required_transaction_relay_fee]
    rw [hmul, hdiv, if_neg (by omega)]
  refine ⟨?_, h2, ?_⟩
  · intro h0
    subst h0
    decide
  · intro hpos hlt
    rw [h2 hpos]
    have hmin := Nat.min_le_left mass MAX_SOMPI
    unfold MINIMUM_RELAY_TRANSACTION_FEE at hlt ⊢
    omega

/-- C6 (witness): the characterization applied at mass 500: the fee is
500, which is below the base relay fee of 1000. -/
theorem minimum_required_fee_characterization_witness :
    minimum_required_transaction_relay_fee 500 = min 500 MAX_SOMPI ∧
    minimum_required_transaction_relay_fee 500 < MINIMUM_RELAY_TRANSACTION_FEE :=
  ⟨(minimum_required_fee_characterization 500 (by decide)).2.1 (by decide),
   (minimum_required_fee_characterization 500 (by decide)).2.2 (by decide) (by decide)⟩

/-- C7: `is_transaction_output_dust` is true for every output whose
locking script is shorter than 33 bytes, and for every other output it
is true exactly when `value * 1000 / (3 * (serialized_size + 148))` is
below the relay fee, the quotient being exact: both `checked_mul` paths
of the source compute the same exact integer value. -/
theorem is_output_dust_classification (o : TransactionOutputInner) :
    (o.scriptPublicKey.script.length < 33 → is_transaction_output_dust o = true) ∧
    (33 ≤ o.scriptPublicKey.script.length →
      (is_transaction_output_dust o = true ↔
        o.value * 1000 / (3 * (transaction_output_serialized_byte_size o + 148)) <
          MINIMUM_RELAY_TRANSACTION_FEE)) := by
  constructor
  · intro h
    simp [is_transaction_output_dust, h]
  · intro h
    have hns : ¬ o.scriptPublicKey.script.length < 33 := by omega
    simp only [is_transaction_output_dust, if_neg hns]
    by_cases hmul : o.value * 1000 < U64MOD
    · rw [if_pos hmul]
      exact decide_eq_true_iff
    · rw [if_neg hmul]
      exact decide_eq_true_iff

/-- An output with a 32-byte (shorter than 33) locking script. -/
def c7_short_script_output : TransactionOutputInner := ⟨1000000, ⟨0, List.replicate 32 0⟩⟩

/-- An output of value `u64::MAX` with the canonical 34-byte script: the
`value * 1000` multiplication overflows 64 bits. -/
def c7_max_value_output : TransactionOutputInner := ⟨2 ^ 64 - 1, ⟨0, pay_to_address_script 0⟩⟩

/-- C7 (witness): the classification applied to a short-script output
(dust) and to a `u64::MAX`-value output, exercising the wide-arithmetic
fallback path (not dust, since the exact quotient is enormous). -/
theorem is_output_dust_classification_witness :
    is_transaction_output_dust c7_short_script_output = true ∧
    is_transaction_output_dust c7_max_value_output = false := by
  constructor
  · exact (is_output_dust_classification c7_short_script_output).1 (by decide)
  · have h := (is_output_dust_classification c7_max_value_output).2 (by decide)
    cases hx : is_transaction_output_dust c7_max_value_output
    · rfl
    · exact absurd (h.mp hx) (by decide)

/-- C9: `==` on `UtxoEntryReference` compares only the amounts, so for
any two references of equal amount (their outpoints may differ) `==`
returns true, and the `retain(..contains..)` membership test performed by
`commit` retains an available record whenever *some* selected record
merely shares its amount. -/
theorem amount_only_equality_defeats_commit_membership (a b : UtxoEntryReference)
    (s : Inner) (now : Nat) (hamt : a.amount = b.amount) (hmem : b ∈ s.entries) :
    (a == b) = true ∧
    b ∈ ((UtxoSelectionContext.mk [a] 0).commit now s).entries := by
  have hbeq : (a == b) = true := by
    show (a.amount == b.amount) = true
    rw [hamt]
    simp
  refine ⟨hbeq, ?_⟩
  show b ∈ s.entries.filter
    (fun entry => (UtxoSelectionContext.mk [a] 0).selected_entries.contains entry)
  refine List.mem_filter.mpr ⟨hmem, ?_⟩
  show List.elem b [a] = true
  have hba : (b == a) = true := by
    show (b.amount == a.amount) = true
    rw [hamt]
    simp
  simp [List.elem, hba]

/-- A UTXO of amount 5 at outpoint (1, 0). -/
def refP5 : UtxoEntryReference := ⟨⟨none, ⟨1, 0⟩, 5⟩⟩

/-- A UTXO of amount 5 at the *different* outpoint (2, 0). -/
def refQ5 : UtxoEntryReference := ⟨⟨none, ⟨2, 0⟩, 5⟩⟩

/-- A UTXO set holding only `refQ5`. -/
def setQ : Inner := UtxoSet.insert Inner.new [refQ5]

/-- C9 (witness): two references with distinct outpoints but equal
amounts compare equal, and committing a context that selected only the
first retains the second in the available sequence. -/
theorem amount_only_equality_witness :
    refP5.id ≠ refQ5.id ∧ (refP5 == refQ5) = true ∧
    refQ5 ∈ ((UtxoSelectionContext.mk [refP5] 0).commit 0 setQ).entries := by
  have h := amount_only_equality_defeats_commit_membership refP5 refQ5 setQ 0 rfl (by decide)
  exact ⟨by decide, h.1, h.2⟩

/-- C8 (amended): with the canonical 34-byte pay-to-pubkey script, values
545 and 546 (and everything up to 599) are dust and 600 is the first
non-dust value, because the serialized output size is 52 bytes and the
total redeeming size 200, giving the bound `value * 1000 / 600 < 1000`. -/
theorem dust_boundary_amended :
    is_transaction_output_dust ⟨545, ⟨0, pay_to_address_script 0⟩⟩ = true ∧
    is_transaction_output_dust ⟨546, ⟨0, pay_to_address_script 0⟩⟩ = true ∧
    is_transaction_output_dust ⟨599, ⟨0, pay_to_address_script 0⟩⟩ = true ∧
    is_transaction_output_dust ⟨600, ⟨0, pay_to_address_script 0⟩⟩ = false ∧
    transaction_output_serialized_byte_size ⟨600, ⟨0, pay_to_address_script 0⟩⟩ = 52 := by
  decide

end RustyKaspa
